import Mathlib

/-!
# Verification of the JupiRSW rotating shallow-water model

Shallow embedding of the repository's source files (`core.py`, `utils.py`,
`config.py`, `data.py`, `model.py`).  Two-dimensional numpy arrays are
embedded as functions `ℕ → ℕ → α` over a field `α` (exact arithmetic in
place of floating point); slice assignments become explicit update
combinators; the xarray time axis of `data.py` becomes a list of labels.
The external special functions of scipy (`gamma`, `gammaincc`) are taken
as parameters, since they are library dependencies, not repository code.
-/

namespace JupiRSW

/-- A two-dimensional array, indexed row-first like numpy. -/
abbrev Arr (α : Type) := ℕ → ℕ → α

section CoreOps

variable {α : Type} [Field α]

/-- Embeds `core.ddx`: `(z[:, 1:] - z[:, :-1]) / dx`. -/
def ddx (z : Arr α) (dx : α) : Arr α := fun i j => (z i (j + 1) - z i j) / dx

/-- Embeds `core.ddy`: `(z[1:, :] - z[:-1, :]) / dy`. -/
def ddy (z : Arr α) (dy : α) : Arr α := fun i j => (z (i + 1) j - z i j) / dy

/-- Embeds `core.avx`: `(z[:, 1:] + z[:, :-1]) * 0.5`. -/
def avx (z : Arr α) : Arr α := fun i j => (z i (j + 1) + z i j) * (1 / 2)

/-- Embeds `core.avy`: `(z[1:, :] + z[:-1, :]) * 0.5`. -/
def avy (z : Arr α) : Arr α := fun i j => (z (i + 1) j + z i j) * (1 / 2)

/-- Embeds `np.zeros`: the all-zero array. -/
def zerosArr : Arr α := fun _ _ => 0

/-- Numpy slice assignment `a[lo:hi, :] = b` (row band replaced by `b`,
re-indexed from `lo`). -/
def setRows (a : Arr α) (lo hi : ℕ) (b : Arr α) : Arr α :=
  fun i j => if lo ≤ i ∧ i < hi then b (i - lo) j else a i j

/-- Numpy slice assignment `a[:, lo:hi] = b`. -/
def setCols (a : Arr α) (lo hi : ℕ) (b : Arr α) : Arr α :=
  fun i j => if lo ≤ j ∧ j < hi then b i (j - lo) else a i j

/-- Numpy in-place subtraction `a[:, lo:hi] -= b`. -/
def subCols (a : Arr α) (lo hi : ℕ) (b : Arr α) : Arr α :=
  fun i j => if lo ≤ j ∧ j < hi then a i j - b i (j - lo) else a i j

/-- Embeds `core.curl(u, v, dx, dy)` for `u` of shape `ny × (nx+1)` and `v` of shape
`(ny+1) × nx`: a zero array of shape `(ny+1) × (nx+1)` whose rows `1:-1`
receive `ddy(u, dy)` and whose columns `1:-1` have `ddx(v, dx)` subtracted. -/
def curl (ny nx : ℕ) (u v : Arr α) (dx dy : α) : Arr α :=
  subCols (setRows zerosArr 1 ny (ddy u dy)) 1 nx (ddx v dx)

/-- Embeds `core.rhs(state, f, g, h_0, dx, dy)` on a state `(h, u, v)` with
`h : ny × nx`, `u : ny × (nx+1)`, `v : (ny+1) × nx`, `f : (ny+1) × (nx+1)`.
Returns the tendencies `(d_h, du, dv)`. -/
def rhs (ny nx : ℕ) (h u v : Arr α) (f : Arr α) (g h_0 dx dy : α) :
    Arr α × Arr α × Arr α :=
  let h_x := setCols zerosArr 1 nx (avx (fun i j => h_0 + h i j))
  let h_y := setRows zerosArr 1 ny (avy (fun i j => h_0 + h i j))
  let d_h := fun i j =>
    -(ddx (fun a c => h_x a c * u a c) dx i j +
      ddy (fun a c => h_y a c * v a c) dy i j)
  let omega := fun i j => f i j + curl ny nx u v dx dy i j
  let bern := fun i j =>
    g * h i j + 1 / 2 * (avx (fun a c => u a c ^ 2) i j +
                         avy (fun a c => v a c ^ 2) i j)
  let du := setCols zerosArr 1 nx (fun i j =>
    -(ddx bern dx i j) + avy (fun a c => omega a (c + 1)) i j * avy (avx v) i j)
  let dv := setRows zerosArr 1 ny (fun i j =>
    -(ddy bern dy i j) - avx (fun a c => omega (a + 1) c) i j * avx (avy u) i j)
  (d_h, du, dv)

/-- Embeds `core.rk3(h, u, v, dt, f, g, h_0, dx, dy)`: the three-stage Runge-Kutta
step exactly as written in the source. -/
def rk3 (ny nx : ℕ) (h u v : Arr α) (dt : α) (f : Arr α) (g h_0 dx dy : α) :
    Arr α × Arr α × Arr α :=
  let ds0 := rhs ny nx h u v f g h_0 dx dy
  let h0s := fun i j => h i j + ds0.1 i j * dt
  let u0s := fun i j => u i j + ds0.2.1 i j * dt
  let v0s := fun i j => v i j + ds0.2.2 i j * dt
  let ds1 := rhs ny nx h0s u0s v0s f g h_0 dx dy
  let h1s := fun i j => h i j + (ds0.1 i j + ds1.1 i j) * (dt / 4)
  let u1s := fun i j => u i j + (ds0.2.1 i j + ds1.2.1 i j) * (dt / 4)
  let v1s := fun i j => v i j + (ds0.2.2 i j + ds1.2.2 i j) * (dt / 4)
  let ds2 := rhs ny nx h1s u1s v1s f g h_0 dx dy
  (fun i j => h i j + (ds0.1 i j + ds1.1 i j + 4 * ds2.1 i j) * (dt / 6),
   fun i j => u i j + (ds0.2.1 i j + ds1.2.1 i j + 4 * ds2.2.1 i j) * (dt / 6),
   fun i j => v i j + (ds0.2.2 i j + ds1.2.2 i j + 4 * ds2.2.2 i j) * (dt / 6))

end CoreOps

/-! ## `utils.py` -/

/-- Embeds `utils.co`: colatitude from latitude (and conversely), in degrees. -/
def co (lat : ℝ) : ℝ := 90 - lat

/-- Embeds `utils.r`: distance of `(x, y)` to the origin. -/
noncomputable def r (x y : ℝ) : ℝ := Real.sqrt (x ^ 2 + y ^ 2)

/-- Value of a run of decimal digits (the `float(...)` conversion of a
digit-only named group of `utils.parse_time`, which is a whole number). -/
def digitsVal (ds : List Char) : ℕ := ds.foldl (fun a c => 10 * a + (c.toNat - 48)) 0

/-- Consume the literal `lit` from the front of `cs`, returning the rest. -/
def dropLit : List Char → List Char → Option (List Char)
  | [], cs => some cs
  | _ :: _, [] => none
  | p :: ps, c :: cs => if p = c then dropLit ps cs else none

/-- A regex alternation of literal unit spellings: the alternatives are tried
left to right and the first one that matches wins (re's alternation order). -/
def firstUnit : List (List Char) → List Char → Option (List Char)
  | [], _ => none
  | u :: us, cs =>
    match dropLit u cs with
    | some rest => some rest
    | none => firstUnit us cs

/-- One optional group `(\d+?)(unit alternatives)` of the
`utils.parse_time` regex: a nonempty digit run followed by a unit spelling;
on failure nothing is consumed (the group does not participate). -/
def numUnit (units : List (List Char)) (cs : List Char) : Option (ℕ × List Char) :=
  let ds := cs.takeWhile Char.isDigit
  if ds.isEmpty then none
  else
    match firstUnit units (cs.drop ds.length) with
    | some rest => some (digitsVal ds, rest)
    | none => none

/-- Group value: the named group's number, or `0` when the group is absent
(`None` groups are mapped to `0` in `utils.parse_time`).  The captured
groups are runs of decimal digits, so their `float(...)` conversion is a
whole number, represented here in `ℕ`. -/
def groupVal (units : List (List Char)) (cs : List Char) : ℕ × List Char :=
  match numUnit units cs with
  | some (n, rest) => (n, rest)
  | none => (0, cs)

/-- The day group `((?P<d>\d+?)D|DAY|DAYS)?` of `utils.parse_time`: its
alternation puts the digit capture only on the first alternative, so the bare
literals `DAY`/`DAYS` match while leaving the named group empty. -/
def dayGroupVal (cs : List Char) : ℕ × List Char :=
  match numUnit [['D']] cs with
  | some (n, rest) => (n, rest)
  | none =>
    match dropLit ['D', 'A', 'Y'] cs with
    | some rest => (0, rest)
    | none =>
      match dropLit ['D', 'A', 'Y', 'S'] cs with
      | some rest => (0, rest)
      | none => (0, cs)

/-- Embeds `val.replace(' ', '').upper()` from `utils.parse_time`. -/
def toUpperNoSpace (s : String) : List Char :=
  (s.data.filter (fun c => c ≠ ' ')).map Char.toUpper

/-- The regex match of `utils.parse_time`: the anchored sequence of optional
year, month, week, day, hour, minute, second groups (in this order, with the
source's alternation orders), returning the seven named group values.  All
groups being optional, the match never fails and absent groups yield `0`. -/
def parseGroups (s : String) : ℕ × ℕ × ℕ × ℕ × ℕ × ℕ × ℕ :=
  let cs0 := toUpperNoSpace s
  let py := groupVal [['Y'], ['Y','R'], ['Y','R','S'], ['Y','E','A','R','S'], ['Y','E','A','R']] cs0
  let pm := groupVal [['M'], ['M','O','N','T','H','S'], ['M','O','N','T','H']] py.2
  let pw := groupVal [['W'], ['W','E','E','K','S'], ['W','E','E','K']] pm.2
  let pd := dayGroupVal pw.2
  let ph := groupVal [['H'], ['H','R'], ['H','R','S'], ['H','O','U','R'], ['H','O','U','R','S']] pd.2
  let pmin := groupVal [['M'], ['M','I','N'], ['M','I','N','U','T','E'], ['M','I','N','U','T','E','S']] ph.2
  let ps := groupVal [['S'], ['S','E','C'], ['S','E','C','O','N','D','S'], ['S','E','C','O','N','D']] pmin.2
  (py.1, pm.1, pw.1, pd.1, ph.1, pmin.1, ps.1)

/-- The string branch of `utils.parse_time`:
`secs = (((365*y + 30*m + 7*w + d) * 24 + h) * 60 + min) * 60 + s`,
computed on the (whole-numbered) group values. -/
def parseTimeStr (s : String) : ℚ :=
  let g := parseGroups s
  (((365 * (g.1 : ℚ) + 30 * g.2.1 + 7 * g.2.2.1 + g.2.2.2.1) * 24 +
      g.2.2.2.2.1) * 60 + g.2.2.2.2.2.1) * 60 + g.2.2.2.2.2.2

/-- The dynamic type of the `val` argument of `utils.parse_time`: a number,
a string, or anything else (such as `None`). -/
inductive PyTimeVal where
  | num (q : ℚ)
  | str (s : String)
  | other
deriving DecidableEq

/-- Embeds `utils.parse_time(val)`: numbers are returned unchanged, strings are
parsed by the regex, anything else raises
`ValueError('Time should be a number or a string.')`. -/
def parse_time : PyTimeVal → Except String ℚ
  | .num q => .ok q
  | .str s => .ok (parseTimeStr s)
  | .other => .error "Time should be a number or a string."

/-! ## `data.py` -/

/-- Python's `str.strip(chars)`: remove every leading and trailing character
belonging to the set `chars` (not the literal substring). -/
def pyStrip (s : String) (chars : List Char) : String :=
  ⟨((s.data.dropWhile (fun c => c ∈ chars)).reverse.dropWhile
      (fun c => c ∈ chars)).reverse⟩

/-- The file name written by `Data.save_nc` for a non-empty `filename`
argument: `f'{filename.strip(".nc")}.nc'`.  (For an empty argument the
source substitutes an auto-generated timestamped name, which depends on the
wall clock and is outside this embedding.) -/
def save_nc_filename (filename : String) : String :=
  pyStrip filename ['.', 'n', 'c'] ++ ".nc"

/-- Embeds `DataArray.time.max()`: maximum of the time axis labels (the axis is
never empty: it starts as `[0]` and only grows). -/
def listMax : List ℚ → ℚ
  | [] => 0
  | x :: xs => xs.foldl max x

/-- Embeds `Data.extend_dataset(n=100)` acting on the time axis: append
`n = max(100, size)` new labels `t_max + output_dt * (i+1)`, `i < n`
(the `np.arange(t_max + output_dt, t_max + (n+1)*output_dt, output_dt)`
of the source). -/
def extend_dataset (output_dt : ℚ) (axis : List ℚ) : List ℚ :=
  let n := max 100 axis.length
  axis ++ (List.range n).map (fun (i : ℕ) => listMax axis + output_dt * ((i : ℚ) + 1))

/-- Embeds `Data.store_state(time, u, v, h)` acting on the time axis: the labelled
write `self.u.loc[dict(time=time)] = u` succeeds exactly when `time` is a
label of the axis, otherwise it raises `KeyError`, which is caught, the
dataset is extended, and the call retries itself.  The unbounded recursion
of the source is given a fuel argument; `none` means the recursion has not
ended within `fuel` retries. -/
def store_state (output_dt time : ℚ) : ℕ → List ℚ → Option (List ℚ)
  | 0, _ => none
  | fuel + 1, axis =>
    if time ∈ axis then some axis
    else store_state output_dt time fuel (extend_dataset output_dt axis)

/-- The time axis consisting of the first `s` multiples of `d` — the shape
of every axis reachable from the initial `[0]` by `extend_dataset` when
`d > 0`. -/
def axisOf (s : ℕ) (d : ℚ) : List ℚ :=
  (List.range s).map (fun (j : ℕ) => (j : ℚ) * d)

/-! ## `config.py` and `model.py` -/

/-- Embeds `config.LAT_MIN`, the global default minimum latitude (degrees). -/
def LAT_MIN : ℝ := 61

/-- Embeds `Model.__init__`: `self.r_max = utils.co(LAT_MIN) / 180 * np.pi * r_planet`.
Note the source reads the global constant `LAT_MIN`, not the constructor
argument `lat_min`, which is therefore unused here. -/
noncomputable def model_r_max (lat_min r_planet : ℝ) : ℝ :=
  co LAT_MIN / 180 * Real.pi * r_planet

/-- Embeds `Model.__init__`: `self.dx = 2*self.r_max / (self.nx-1)` (and `dy`
likewise with `ny`). -/
noncomputable def model_dx (lat_min r_planet : ℝ) (nx : ℕ) : ℝ :=
  2 * model_r_max lat_min r_planet / ((nx : ℝ) - 1)

/-- Embeds `Model.__init__`: `self.f_0 = 4*np.pi/t_planet`. -/
noncomputable def model_f0 (t_planet : ℝ) : ℝ := 4 * Real.pi / t_planet

/-- Embeds `Model.__init__`: `self.h_0 = self.bu * (self.f_0 * self.r_m)**2 / self.g`. -/
noncomputable def model_h0 (g bu r_m t_planet : ℝ) : ℝ :=
  bu * (model_f0 t_planet * r_m) ^ 2 / g

/-- Embeds `Model.__init__`: `u_max = np.sqrt(self.g * self.h_0)`. -/
noncomputable def model_u_max (g bu r_m t_planet : ℝ) : ℝ :=
  Real.sqrt (g * model_h0 g bu r_m t_planet)

/-- Python's `int(...)` on a float: truncation toward zero. -/
noncomputable def pyInt (x : ℝ) : ℤ := if 0 ≤ x then ⌊x⌋ else ⌈x⌉

/-- Embeds `Model.__init__`:
`self.dt = int(cfl / np.sqrt((u_max/self.dx)**2 + (u_max/self.dy)**2))`. -/
noncomputable def model_dt (nx ny : ℕ) (lat_min r_planet t_planet g bu r_m cfl : ℝ) : ℤ :=
  pyInt (cfl / Real.sqrt
    ((model_u_max g bu r_m t_planet / model_dx lat_min r_planet nx) ^ 2 +
     (model_u_max g bu r_m t_planet / model_dx lat_min r_planet ny) ^ 2))

/-- Embeds `Model.__init__`: the sponge coefficient
`np.maximum((co(lat_min) - np.maximum(colat, co(lat_sponge))) / (co(lat_min) - co(lat_sponge)), 0)`
at a point of colatitude `colat`. -/
noncomputable def sponge (lat_min lat_sponge colat : ℝ) : ℝ :=
  max ((co lat_min - max colat (co lat_sponge)) / (co lat_min - co lat_sponge)) 0

/-- Embeds `model.v_vort(r, v_m, r_m, b)`. -/
noncomputable def v_vort (rr v_m r_m b : ℝ) : ℝ :=
  -v_m * rr / r_m * Real.exp (1 / b * (1 - (rr / r_m) ^ b))

/-- Embeds `model.h_vort(r, h_0, r_m, ro, bu, b)`.  The scipy special functions
`gamma` and `gammaincc` are external library dependencies and are taken as
parameters `GammaF` and `gammainccF`. -/
noncomputable def h_vort (GammaF : ℝ → ℝ) (gammainccF : ℝ → ℝ → ℝ)
    (rr h_0 r_m ro bu b : ℝ) : ℝ :=
  let x_ := 1 / b * (rr / r_m) ^ b
  let s_ := 2 / b
  let gam := GammaF s_ * gammainccF s_ x_
  h_0 * (ro / bu * Real.exp (1 / b) * Real.exp (2 / b - 1) * gam)

/-- Embeds `model.ini_point(x, y, vort_centers, r_m, v_m, b, h_0, ro, bu)`:
accumulate the contribution of every vortex center, skipping the velocity
update when the distance to the center is below `1e-12`. -/
noncomputable def ini_point (GammaF : ℝ → ℝ) (gammainccF : ℝ → ℝ → ℝ)
    (x y : ℝ) (vort_centers : List (ℝ × ℝ)) (r_m v_m b h_0 ro bu : ℝ) :
    ℝ × ℝ × ℝ :=
  vort_centers.foldl (fun acc c =>
    let r_ := r (x - c.1) (y - c.2)
    let h := acc.2.2 + h_vort GammaF gammainccF r_ h_0 r_m ro bu b
    if r_ < 1e-12 then (acc.1, acc.2.1, h)
    else
      let v_az := v_vort r_ v_m r_m b
      (acc.1 - v_az * (y - c.2) / r_, acc.2.1 + v_az * (x - c.1) / r_, h))
    (0, 0, 0)

/-- Embeds `np.linspace(-r_max, r_max + d, n + 1)` at index `i`: the coordinate
lists `x_list`/`y_list` of `Model.__init__`. -/
noncomputable def model_coord (r_max d : ℝ) (n : ℕ) (i : ℕ) : ℝ :=
  -r_max + (i : ℝ) * (2 * r_max + d) / (n : ℝ)

/-- The double loop of `Model.initialize`: for `i in range(nx)`, for
`j in range(ny)`, assign `u[j, i], v[j, i], h[j, i] = pt j i`, where `pt`
is the per-point initial condition (`ini_point` at the meshgrid
coordinates).  Cells outside the loop ranges keep their previous values. -/
def ini_fields (nx ny : ℕ) (u v h : Arr ℝ) (pt : ℕ → ℕ → ℝ × ℝ × ℝ) :
    Arr ℝ × Arr ℝ × Arr ℝ :=
  (fun j i => if j < ny ∧ i < nx then (pt j i).1 else u j i,
   fun j i => if j < ny ∧ i < nx then (pt j i).2.1 else v j i,
   fun j i => if j < ny ∧ i < nx then (pt j i).2.2 else h j i)

/-- Embeds `Model.initialize` acting on the prognostic arrays, with the vortex
centers already built: the per-point function is `ini_point` evaluated at
the meshgrid coordinates `x[j, i] = x_list[i]`, `y[j, i] = y_list[j]`. -/
noncomputable def model_ini (GammaF : ℝ → ℝ) (gammainccF : ℝ → ℝ → ℝ)
    (nx ny : ℕ) (r_max dx dy r_m v_m b h_0 ro bu : ℝ)
    (centers : List (ℝ × ℝ)) (u v h : Arr ℝ) : Arr ℝ × Arr ℝ × Arr ℝ :=
  ini_fields nx ny u v h (fun j i =>
    ini_point GammaF gammainccF (model_coord r_max dx nx i)
      (model_coord r_max dy ny j) centers r_m v_m b h_0 ro bu)

/-- Concrete `v` array used to evaluate `curl` on the boundary:
`v[0, 1] = 1`, all other entries `0` (shape `(ny+1) × nx = 2 × 2`). -/
def vEx : Arr ℚ := fun i j => if i = 0 ∧ j = 1 then 1 else 0

end JupiRSW

namespace JupiRSW

/-- Pointwise description of `curl`. -/
theorem curl_apply {α : Type} [Field α] (ny nx : ℕ) (u v : Arr α) (dx dy : α)
    (i j : ℕ) :
    curl ny nx u v dx dy i j =
      (if 1 ≤ i ∧ i < ny then ddy u dy (i - 1) j else 0) -
      (if 1 ≤ j ∧ j < nx then ddx v dx i (j - 1) else 0) := by
  unfold curl subCols setRows zerosArr
  by_cases hr : 1 ≤ i ∧ i < ny <;> by_cases hc : 1 ≤ j ∧ j < nx <;>
    simp [hr, hc]

/-- C1: for `u` of shape `ny × (nx+1)` and `v` of shape `(ny+1) × nx`,
`curl(u, v, dx, dy)` is the `(ny+1) × (nx+1)` array equal to `ddy(u)` placed
in the interior rows minus `ddx(v)` placed in the interior columns of a
zero-initialized corner-sized array.  Amended: only the four corner entries
of the boundary are always zero; the first and last row carry `-ddx(v)` in
the interior columns, and the first and last column carry `ddy(u)` in the
interior rows, as the pointwise formula states. -/
theorem c1_curl_placement (ny nx : ℕ) (u v : Arr ℚ) (dx dy : ℚ) (i j : ℕ) :
    (curl ny nx u v dx dy i j =
      (if 1 ≤ i ∧ i < ny then ddy u dy (i - 1) j else 0) -
      (if 1 ≤ j ∧ j < nx then ddx v dx i (j - 1) else 0)) ∧
    curl ny nx u v dx dy 0 0 = 0 ∧
    curl ny nx u v dx dy 0 nx = 0 ∧
    curl ny nx u v dx dy ny 0 = 0 ∧
    curl ny nx u v dx dy ny nx = 0 := by
  refine ⟨curl_apply ny nx u v dx dy i j, ?_, ?_, ?_, ?_⟩ <;>
    rw [curl_apply] <;> simp [Nat.lt_irrefl]

/-- C1 counterexample: with `ny = 1`, `nx = 2`, `u = 0` and
`v[0, 1] = 1` (otherwise `0`), `dx = dy = 1`, the entry of the *first row*
of `curl` at interior column `1` equals `-1`, not `0` as the claim's
"every entry of the first and last row ... is zero" would require. -/
theorem c1_boundary_not_zero : curl 1 2 zerosArr vEx 1 1 0 1 ≠ 0 := by
  norm_num [curl, subCols, setRows, zerosArr, ddx, ddy, vEx]

/-- C4 (code bug): `Data.save_nc("ocean")` writes the file `"ocea.nc"`:
`str.strip(".nc")` removes every leading/trailing character in the set
`{'.', 'n', 'c'}` — here the trailing `'n'` of `"ocean"` — rather than a
trailing `".nc"` extension, so the name is not "otherwise used unchanged". -/
theorem c4_save_nc_strip_bug : save_nc_filename "ocean" = "ocea.nc" := by decide

/-- C6: `parse_time("1d") = 86400`, `parse_time("2h") = 7200`,
`parse_time(3600) = 3600` (numeric passthrough), `parse_time(None)` raises
`ValueError` (the spec's InvalidInput), and the lone string `"5M"` is taken
by the month branch, yielding `5 * 30 * 86400 = 12960000` seconds. -/
theorem c6_parse_time_literals :
    parse_time (.str "1d") = .ok 86400 ∧
    parse_time (.str "2h") = .ok 7200 ∧
    parse_time (.num 3600) = .ok 3600 ∧
    parse_time .other = .error "Time should be a number or a string." ∧
    parse_time (.str "5M") = .ok 12960000 ∧ (12960000 : ℚ) = 5 * 30 * 86400 := by
  have h1 : parseGroups "1d" = (0, 0, 0, 1, 0, 0, 0) := by decide
  have h2 : parseGroups "2h" = (0, 0, 0, 0, 2, 0, 0) := by decide
  have h3 : parseGroups "5M" = (0, 5, 0, 0, 0, 0, 0) := by decide
  refine ⟨?_, ?_, rfl, rfl, ?_, by norm_num⟩ <;>
    simp [parse_time, parseTimeStr, h1, h2, h3] <;> norm_num

/-- C5: for every `Model` construction, `r_max` is computed from the global
default constant `LAT_MIN = 61`, i.e. `r_max = (90 - 61)/180 · π · r_planet`,
independently of the `lat_min` constructor argument. -/
theorem c5_r_max_uses_global (lat_min lat_min' r_planet : ℝ) :
    model_r_max lat_min r_planet = (90 - 61) / 180 * Real.pi * r_planet ∧
    model_r_max lat_min r_planet = model_r_max lat_min' r_planet := by
  constructor <;> norm_num [model_r_max, co, LAT_MIN]

/-- C7: the sponge coefficient is `1` for colatitudes at most
`co(lat_sponge) = 90 - lat_sponge`, `0` for colatitudes at least
`co(lat_min) = 90 - lat_min`, interpolates linearly in between, always lies
in `[0, 1]`, and is monotone non-increasing in the colatitude
(for `lat_min < lat_sponge`, as in the defaults `61 < 65`). -/
theorem c7_sponge_profile (lat_min lat_sponge colat colat' : ℝ)
    (h : lat_min < lat_sponge) :
    (colat ≤ co lat_sponge → sponge lat_min lat_sponge colat = 1) ∧
    (co lat_min ≤ colat → sponge lat_min lat_sponge colat = 0) ∧
    (co lat_sponge ≤ colat → colat ≤ co lat_min →
      sponge lat_min lat_sponge colat =
        (co lat_min - colat) / (co lat_min - co lat_sponge)) ∧
    0 ≤ sponge lat_min lat_sponge colat ∧
    sponge lat_min lat_sponge colat ≤ 1 ∧
    (colat ≤ colat' →
      sponge lat_min lat_sponge colat' ≤ sponge lat_min lat_sponge colat) := by
  have h21 : co lat_sponge < co lat_min := by unfold co; linarith
  have hd : 0 < co lat_min - co lat_sponge := by linarith
  refine ⟨fun hc => ?_, fun hc => ?_, fun hc2 hc1 => ?_, le_max_right _ 0, ?_, fun hcc => ?_⟩
  · rw [sponge, max_eq_right hc, div_self (ne_of_gt hd)]
    exact max_eq_left zero_le_one
  · rw [sponge, max_eq_left (le_of_lt (lt_of_lt_of_le h21 hc))]
    exact max_eq_right (div_nonpos_of_nonpos_of_nonneg (by linarith) hd.le)
  · rw [sponge, max_eq_left hc2]
    exact max_eq_left (div_nonneg (by linarith) hd.le)
  · refine max_le ?_ zero_le_one
    rw [div_le_one hd]
    have := le_max_right colat (co lat_sponge)
    linarith
  · refine max_le_max ?_ le_rfl
    have hmm : max colat (co lat_sponge) ≤ max colat' (co lat_sponge) :=
      max_le_max hcc le_rfl
    exact (div_le_div_right hd).mpr (by linarith)

/-- C10: every string input to `parse_time` parses without error — the
regex is a sequence of optional groups, so it always matches and missing
components default to zero — in particular `"abc"` parses to `0`; an error
is raised only for inputs that are neither numeric nor a string. -/
theorem c10_parse_time_total :
    (∀ s : String, ∃ q : ℚ, parse_time (.str s) = .ok q) ∧
    parse_time (.str "abc") = .ok 0 ∧
    (∀ (v : PyTimeVal) (e : String), parse_time v = .error e → v = .other) := by
  have habc : parseGroups "abc" = (0, 0, 0, 0, 0, 0, 0) := by decide
  refine ⟨fun s => ⟨parseTimeStr s, rfl⟩,
    by simp [parse_time, parseTimeStr, habc], fun v e hv => ?_⟩
  cases v with
  | num q => simp [parse_time] at hv
  | str s => simp [parse_time] at hv
  | other => rfl

/-- Python `int(x)` agrees with the floor for nonnegative arguments. -/
theorem pyInt_of_nonneg (x : ℝ) (hx : 0 ≤ x) : pyInt x = ⌊x⌋ := if_pos hx

/-- C3: the `Model` timestep is
`dt = floor(cfl / sqrt((u_max/dx)^2 + (u_max/dy)^2))` with
`u_max = sqrt(g*h_0)`, and doubling `nx` does not increase it.
Amended: `dt` is a *nonnegative* integer, but not a positive one in
general — `int(...)` truncates to `0` as soon as the CFL quotient drops
below `1` (fine enough grids), as the counterexample shows. -/
theorem c3_dt_formula_monotone (nx ny : ℕ) (lat_min r_planet t_planet g bu r_m cfl : ℝ)
    (hnx : 2 ≤ nx) (hny : 2 ≤ ny) (hr : 0 < r_planet) (ht : 0 < t_planet)
    (hg : 0 < g) (hbu : 0 < bu) (hrm : 0 < r_m) (hcfl : 0 ≤ cfl) :
    model_dt nx ny lat_min r_planet t_planet g bu r_m cfl =
      ⌊cfl / Real.sqrt
        ((model_u_max g bu r_m t_planet / model_dx lat_min r_planet nx) ^ 2 +
         (model_u_max g bu r_m t_planet / model_dx lat_min r_planet ny) ^ 2)⌋ ∧
    0 ≤ model_dt nx ny lat_min r_planet t_planet g bu r_m cfl ∧
    model_dt (2 * nx) ny lat_min r_planet t_planet g bu r_m cfl ≤
      model_dt nx ny lat_min r_planet t_planet g bu r_m cfl := by
  have h0pos : 0 < model_h0 g bu r_m t_planet := by
    unfold model_h0 model_f0
    positivity
  have humax : 0 < model_u_max g bu r_m t_planet :=
    Real.sqrt_pos.mpr (mul_pos hg h0pos)
  have hrmax : 0 < model_r_max lat_min r_planet := by
    unfold model_r_max
    have hco : co LAT_MIN = 29 := by norm_num [co, LAT_MIN]
    rw [hco]
    positivity
  have hdxpos : ∀ m : ℕ, 2 ≤ m → 0 < model_dx lat_min r_planet m := by
    intro m hm
    have hm' : (2 : ℝ) ≤ (m : ℝ) := by exact_mod_cast hm
    exact div_pos (by positivity) (by linarith)
  have hEpos : ∀ m k : ℕ, 2 ≤ m → 2 ≤ k →
      0 < (model_u_max g bu r_m t_planet / model_dx lat_min r_planet m) ^ 2 +
          (model_u_max g bu r_m t_planet / model_dx lat_min r_planet k) ^ 2 := by
    intro m k hm hk
    have h1 := div_pos humax (hdxpos m hm)
    have h2 := div_pos humax (hdxpos k hk)
    positivity
  have hnonneg : ∀ m k : ℕ,
      0 ≤ cfl / Real.sqrt
        ((model_u_max g bu r_m t_planet / model_dx lat_min r_planet m) ^ 2 +
         (model_u_max g bu r_m t_planet / model_dx lat_min r_planet k) ^ 2) := by
    intro m k
    exact div_nonneg hcfl (Real.sqrt_nonneg _)
  refine ⟨pyInt_of_nonneg _ (hnonneg nx ny), ?_, ?_⟩
  · rw [model_dt, pyInt_of_nonneg _ (hnonneg nx ny)]
    exact Int.floor_nonneg.mpr (hnonneg nx ny)
  · have h2nx : 2 ≤ 2 * nx := by omega
    have hdxle : model_dx lat_min r_planet (2 * nx) ≤ model_dx lat_min r_planet nx := by
      unfold model_dx
      have hc : ((nx : ℝ) - 1) ≤ ((2 * nx : ℕ) : ℝ) - 1 := by
        push_cast
        have : (2 : ℝ) ≤ (nx : ℝ) := by exact_mod_cast hnx
        linarith
      have hb : 0 < (nx : ℝ) - 1 := by
        have : (2 : ℝ) ≤ (nx : ℝ) := by exact_mod_cast hnx
        linarith
      exact div_le_div_of_nonneg_left (by positivity) hb hc
    have hterm : (model_u_max g bu r_m t_planet / model_dx lat_min r_planet nx) ^ 2 ≤
        (model_u_max g bu r_m t_planet / model_dx lat_min r_planet (2 * nx)) ^ 2 := by
      have h1 : model_u_max g bu r_m t_planet / model_dx lat_min r_planet nx ≤
          model_u_max g bu r_m t_planet / model_dx lat_min r_planet (2 * nx) :=
        div_le_div_of_nonneg_left humax.le (hdxpos (2 * nx) h2nx) hdxle
      have h0 : 0 ≤ model_u_max g bu r_m t_planet / model_dx lat_min r_planet nx :=
        (div_pos humax (hdxpos nx hnx)).le
      exact pow_le_pow_left h0 h1 2
    have hEle := add_le_add_right hterm
      ((model_u_max g bu r_m t_planet / model_dx lat_min r_planet ny) ^ 2)
    have hsqrt1 : 0 < Real.sqrt
        ((model_u_max g bu r_m t_planet / model_dx lat_min r_planet nx) ^ 2 +
         (model_u_max g bu r_m t_planet / model_dx lat_min r_planet ny) ^ 2) :=
      Real.sqrt_pos.mpr (hEpos nx ny hnx hny)
    have hdivle : cfl / Real.sqrt
        ((model_u_max g bu r_m t_planet / model_dx lat_min r_planet (2 * nx)) ^ 2 +
         (model_u_max g bu r_m t_planet / model_dx lat_min r_planet ny) ^ 2) ≤
        cfl / Real.sqrt
        ((model_u_max g bu r_m t_planet / model_dx lat_min r_planet nx) ^ 2 +
         (model_u_max g bu r_m t_planet / model_dx lat_min r_planet ny) ^ 2) :=
      div_le_div_of_nonneg_left hcfl hsqrt1 (Real.sqrt_le_sqrt hEle)
    rw [model_dt, model_dt, pyInt_of_nonneg _ (hnonneg (2 * nx) ny),
      pyInt_of_nonneg _ (hnonneg nx ny)]
    exact Int.floor_le_floor hdivle

/-- C3 witness: the default-like construction with `nx = ny = 2`,
`r_planet = 1`, `t_planet = 4`, `g = bu = r_m = cfl = 1` satisfies the
hypotheses, and doubling `nx` does not increase `dt`. -/
theorem c3_dt_witness :
    (2 : ℕ) ≤ 2 ∧ (0 : ℝ) < 1 ∧
    0 ≤ model_dt 2 2 61 1 4 1 1 1 1 ∧
    model_dt (2 * 2) 2 61 1 4 1 1 1 1 ≤ model_dt 2 2 61 1 4 1 1 1 1 := by
  have h := c3_dt_formula_monotone 2 2 61 1 4 1 1 1 1 le_rfl le_rfl
    (by norm_num) (by norm_num) (by norm_num) (by norm_num) (by norm_num)
    (by norm_num)
  exact ⟨le_rfl, by norm_num, h.2.1, h.2.2⟩

/-- C3 counterexample: the claim "`dt` is a positive integer" fails: for the
Model construction `nx = ny = 2`, `lat_min = 61`, `r_planet = 1`,
`t_planet = 4`, `g = bu = r_m = cfl = 1` the CFL quotient is
`29/(90*sqrt 2) < 1`, so `int(...)` truncates the timestep to `0`. -/
theorem c3_dt_zero : model_dt 2 2 61 1 4 1 1 1 1 = 0 := by
  have hpi := Real.pi_pos
  have humax : model_u_max 1 1 1 4 = Real.pi := by
    unfold model_u_max model_h0 model_f0
    have h : (1 : ℝ) * ((1 : ℝ) * (4 * Real.pi / 4 * 1) ^ 2 / 1) = Real.pi ^ 2 := by
      ring
    rw [h, Real.sqrt_sq hpi.le]
  have hdx : model_dx 61 1 2 = 29 * Real.pi / 90 := by
    unfold model_dx model_r_max
    have hco : co LAT_MIN = 29 := by norm_num [co, LAT_MIN]
    rw [hco]
    norm_num
    ring
  have hratio : model_u_max 1 1 1 4 / model_dx 61 1 2 = 90 / 29 := by
    rw [humax, hdx, div_eq_iff (by positivity : (29 : ℝ) * Real.pi / 90 ≠ 0)]
    ring
  have hsum : (model_u_max 1 1 1 4 / model_dx 61 1 2) ^ 2 +
      (model_u_max 1 1 1 4 / model_dx 61 1 2) ^ 2 = 16200 / 841 := by
    rw [hratio]
    norm_num
  rw [model_dt, hsum]
  have hsq : (1 : ℝ) < Real.sqrt (16200 / 841) :=
    (Real.lt_sqrt (by norm_num)).mpr (by norm_num)
  have hpos : 0 < Real.sqrt (16200 / 841) := by linarith
  have harg0 : 0 ≤ (1 : ℝ) / Real.sqrt (16200 / 841) :=
    div_nonneg (by norm_num) hpos.le
  have harg1 : (1 : ℝ) / Real.sqrt (16200 / 841) < 1 :=
    (div_lt_one hpos).mpr hsq
  rw [pyInt_of_nonneg _ harg0, Int.floor_eq_zero_iff]
  exact ⟨harg0, harg1⟩

/-- A left fold of `max` is the start value or a list element. -/
theorem foldl_max_mem (a : ℚ) (l : List ℚ) :
    l.foldl max a = a ∨ l.foldl max a ∈ l := by
  induction l generalizing a with
  | nil => exact Or.inl rfl
  | cons b bs ih =>
    rcases ih (max a b) with h | h
    · rcases max_choice a b with hm | hm
      · exact Or.inl (by rw [List.foldl_cons, h, hm])
      · exact Or.inr (by rw [List.foldl_cons, h, hm]; exact List.mem_cons_self _ _)
    · exact Or.inr (List.mem_cons_of_mem _ h)

/-- The maximum of a nonempty label list is one of its labels. -/
theorem listMax_mem : ∀ {l : List ℚ}, l ≠ [] → listMax l ∈ l
  | [], h => absurd rfl h
  | x :: xs, _ => by
    rcases foldl_max_mem x xs with h | h
    · rw [listMax, h]; exact List.mem_cons_self _ _
    · exact List.mem_cons_of_mem _ h

/-- Value of `listMax` on a nonempty list with one label appended. -/
theorem listMax_snoc (l : List ℚ) (hl : l ≠ []) (x : ℚ) :
    listMax (l ++ [x]) = max (listMax l) x := by
  cases l with
  | nil => exact absurd rfl hl
  | cons a as => simp [listMax, List.foldl_append]

/-- The axis of the first `s` multiples of `d`, one more multiple appended. -/
theorem axisOf_succ (s : ℕ) (d : ℚ) :
    axisOf (s + 1) d = axisOf s d ++ [(s : ℚ) * d] := by
  simp [axisOf, List.range_succ]

theorem axisOf_ne_nil (s : ℕ) (d : ℚ) (hs : 1 ≤ s) : axisOf s d ≠ [] := by
  simp [axisOf, List.range_eq_nil]
  omega

/-- For `d ≥ 0` the maximum label of `axisOf s d` is its last one. -/
theorem listMax_axisOf (d : ℚ) (hd : 0 ≤ d) :
    ∀ s, 1 ≤ s → listMax (axisOf s d) = ((s - 1 : ℕ) : ℚ) * d := by
  intro s
  induction s with
  | zero => omega
  | succ n ih =>
    intro _
    rcases Nat.eq_zero_or_pos n with hn | hn
    · subst hn
      have h1 : axisOf 1 d = [0] := by simp [axisOf, List.range_succ]
      rw [h1]
      simp [listMax]
    · rw [axisOf_succ, listMax_snoc _ (axisOf_ne_nil n d hn), ih hn]
      have hle : ((n - 1 : ℕ) : ℚ) * d ≤ (n : ℚ) * d := by
        have : ((n - 1 : ℕ) : ℚ) ≤ (n : ℚ) := by exact_mod_cast Nat.sub_le n 1
        exact mul_le_mul_of_nonneg_right this hd
      rw [max_eq_right hle]
      norm_num

/-- Applying `extend_dataset` maps a multiples-of-`d` axis to a longer one. -/
theorem extend_axisOf (d : ℚ) (hd : 0 ≤ d) (s : ℕ) (hs : 1 ≤ s) :
    extend_dataset d (axisOf s d) = axisOf (s + max 100 s) d := by
  have hlen : (axisOf s d).length = s := by simp [axisOf]
  have hmax := listMax_axisOf d hd s hs
  have key : axisOf (s + max 100 s) d =
      axisOf s d ++ (List.range (max 100 s)).map (fun (i : ℕ) => ((s + i : ℕ) : ℚ) * d) := by
    simp only [axisOf, List.range_add, List.map_append, List.map_map]
    rfl
  simp only [extend_dataset, hlen, hmax, key]
  congr 1
  refine List.map_congr_left fun i _ => ?_
  have h1 : ((s - 1 : ℕ) : ℚ) = (s : ℚ) - 1 := by
    push_cast [Nat.cast_sub hs]; ring
  push_cast [h1]
  ring

/-- With enough fuel, `store_state` succeeds on a multiples-of-`d` axis as
soon as the target multiple is covered. -/
theorem store_state_axisOf (d : ℚ) (hd : 0 < d) (k : ℕ) :
    ∀ fuel s, 1 ≤ s → k < s + 100 * fuel →
      ∃ axis, store_state d ((k : ℚ) * d) (fuel + 1) (axisOf s d) = some axis := by
  intro fuel
  induction fuel with
  | zero =>
    intro s hs hk
    have hmem : (k : ℚ) * d ∈ axisOf s d :=
      List.mem_map.mpr ⟨k, List.mem_range.mpr (by omega), rfl⟩
    exact ⟨axisOf s d, by simp [store_state, hmem]⟩
  | succ fuel ih =>
    intro s hs hk
    by_cases hmem : (k : ℚ) * d ∈ axisOf s d
    · exact ⟨axisOf s d, by simp [store_state, hmem]⟩
    · have step : store_state d ((k : ℚ) * d) (fuel + 1 + 1) (axisOf s d) =
          store_state d ((k : ℚ) * d) (fuel + 1) (extend_dataset d (axisOf s d)) := by
        simp [store_state, hmem]
      rw [step, extend_axisOf d hd.le s hs]
      apply ih
      · omega
      · have h100 : 100 ≤ max 100 s := le_max_left _ _
        omega

/-- C2: `Data.store_state` recovers from the lookup error by extending and
retrying, and terminates successfully — amended: for every time of the form
`k · output_dt` with `k` a nonnegative integer (and `output_dt > 0`), the
extend-and-retry recursion reaches an axis containing the time and succeeds
without surfacing an error; it is *not* true for every nonnegative time
(see the counterexample for `time = 1/2`, `output_dt = 1`). -/
theorem c2_store_state_lattice (d : ℚ) (hd : 0 < d) (k : ℕ) :
    ∃ fuel axis, store_state d ((k : ℚ) * d) fuel [0] = some axis := by
  have h0 : axisOf 1 d = [0] := by simp [axisOf, List.range_succ]
  obtain ⟨axis, hax⟩ := store_state_axisOf d hd k (k + 1) 1 le_rfl (by omega)
  rw [h0] at hax
  exact ⟨k + 2, axis, hax⟩

/-- C2 witness: with `output_dt = 1 > 0` the write at time `5 = 5·1`
eventually succeeds. -/
theorem c2_store_state_witness :
    (0 : ℚ) < 1 ∧
    ∃ fuel axis, store_state 1 (((5 : ℕ) : ℚ) * 1) fuel [0] = some axis :=
  ⟨by norm_num, c2_store_state_lattice 1 (by norm_num) 5⟩

/-- On an axis of integer labels, a non-integer time is never found and the
extend-and-retry recursion never ends (every extension adds only integer
labels). -/
theorem store_state_non_integer_none (t : ℚ) (ht : ∀ j : ℕ, t ≠ (j : ℚ)) :
    ∀ fuel axis, (∀ x ∈ axis, ∃ j : ℕ, x = (j : ℚ)) → axis ≠ [] →
      store_state 1 t fuel axis = none := by
  intro fuel
  induction fuel with
  | zero => intro axis _ _; rfl
  | succ fuel ih =>
    intro axis hax hne
    have hmem : t ∉ axis := fun hm => by
      obtain ⟨j, hj⟩ := hax t hm
      exact ht j hj
    have step : store_state 1 t (fuel + 1) axis =
        store_state 1 t fuel (extend_dataset 1 axis) := by
      simp [store_state, hmem]
    rw [step]
    apply ih
    · intro x hx
      unfold extend_dataset at hx
      rcases List.mem_append.mp hx with hx | hx
      · exact hax x hx
      · obtain ⟨i, _, rfl⟩ := List.mem_map.mp hx
        obtain ⟨jm, hjm⟩ := hax (listMax axis) (listMax_mem hne)
        exact ⟨jm + i + 1, by rw [hjm]; push_cast; ring⟩
    · unfold extend_dataset
      intro hcon
      exact hne (List.append_eq_nil.mp hcon).1

/-- C2 counterexample: for the nonnegative time `1/2` with `output_dt = 1`,
`store_state` never succeeds — the requested time is never a label of any
extended axis, so the extend-and-retry recursion never ends (the Python
original recurses without bound). -/
theorem c2_nonlattice_diverges :
    ¬ ∃ fuel axis, store_state 1 (1 / 2) fuel [0] = some axis := by
  rintro ⟨fuel, axis, hax⟩
  have hnone : store_state 1 (1 / 2) fuel [0] = none := by
    refine store_state_non_integer_none (1 / 2) (fun j hj => ?_) fuel [0]
      (fun x hx => ?_) (by simp)
    · have hj1 : (j : ℚ) < 1 := by rw [← hj]; norm_num
      have hj0 : j = 0 := by exact_mod_cast Nat.lt_one_iff.mp (by exact_mod_cast hj1)
      subst hj0
      norm_num at hj
    · simp only [List.mem_singleton] at hx
      exact ⟨0, by rw [hx]; norm_num⟩
  rw [hax] at hnone
  exact Option.some_ne_none _ hnone

/-- C9: `Model.initialize` only writes the first `nx` columns of `u` and the
first `ny` rows of `v` (the loops run `i in range(nx)`, `j in range(ny)`):
starting from the zero arrays allocated in `Model.__init__`, the last column
of `u` (index `nx`) and the last row of `v` (index `ny`) remain zero, for
every choice of vortex centers and physical parameters. -/
theorem c9_ini_leaves_edges_zero (GammaF : ℝ → ℝ) (gammainccF : ℝ → ℝ → ℝ)
    (nx ny : ℕ) (r_max dx dy r_m v_m b h_0 ro bu : ℝ)
    (centers : List (ℝ × ℝ)) (j i : ℕ) :
    (model_ini GammaF gammainccF nx ny r_max dx dy r_m v_m b h_0 ro bu centers
      zerosArr zerosArr zerosArr).1 j nx = 0 ∧
    (model_ini GammaF gammainccF nx ny r_max dx dy r_m v_m b h_0 ro bu centers
      zerosArr zerosArr zerosArr).2.1 ny i = 0 := by
  constructor <;> simp [model_ini, ini_fields, zerosArr]

/-- C8: if `rhs` returns zero tendencies for all three fields at a state
`(h, u, v)`, then one `rk3` call returns the state unchanged: every stage
combination collapses to the identity in exact arithmetic. -/
theorem c8_rk3_identity (ny nx : ℕ) (h u v : Arr ℚ) (dt : ℚ) (f : Arr ℚ)
    (g h_0 dx dy : ℚ)
    (hz : rhs ny nx h u v f g h_0 dx dy = (zerosArr, zerosArr, zerosArr)) :
    rk3 ny nx h u v dt f g h_0 dx dy = (h, u, v) := by
  have s0h : (fun i j => h i j + (rhs ny nx h u v f g h_0 dx dy).1 i j * dt) = h := by
    funext i j; rw [hz]; simp [zerosArr]
  have s0u : (fun i j => u i j + (rhs ny nx h u v f g h_0 dx dy).2.1 i j * dt) = u := by
    funext i j; rw [hz]; simp [zerosArr]
  have s0v : (fun i j => v i j + (rhs ny nx h u v f g h_0 dx dy).2.2 i j * dt) = v := by
    funext i j; rw [hz]; simp [zerosArr]
  simp only [rk3]
  rw [s0h, s0u, s0v]
  have s1h : (fun i j => h i j + ((rhs ny nx h u v f g h_0 dx dy).1 i j +
      (rhs ny nx h u v f g h_0 dx dy).1 i j) * (dt / 4)) = h := by
    funext i j; rw [hz]; simp [zerosArr]
  have s1u : (fun i j => u i j + ((rhs ny nx h u v f g h_0 dx dy).2.1 i j +
      (rhs ny nx h u v f g h_0 dx dy).2.1 i j) * (dt / 4)) = u := by
    funext i j; rw [hz]; simp [zerosArr]
  have s1v : (fun i j => v i j + ((rhs ny nx h u v f g h_0 dx dy).2.2 i j +
      (rhs ny nx h u v f g h_0 dx dy).2.2 i j) * (dt / 4)) = v := by
    funext i j; rw [hz]; simp [zerosArr]
  rw [s1h, s1u, s1v]
  refine Prod.ext ?_ (Prod.ext ?_ ?_) <;> funext i j <;> rw [hz] <;>
    simp [zerosArr]

/-- C8 witness: the all-zero state with zero Coriolis field has zero `rhs`
tendencies, and `rk3` leaves it unchanged. -/
theorem c8_rk3_identity_witness :
    rhs 2 2 (zerosArr : Arr ℚ) zerosArr zerosArr zerosArr 1 1 1 1 =
      (zerosArr, zerosArr, zerosArr) ∧
    rk3 2 2 (zerosArr : Arr ℚ) zerosArr zerosArr 1 zerosArr 1 1 1 1 =
      (zerosArr, zerosArr, zerosArr) := by
  have hz : rhs 2 2 (zerosArr : Arr ℚ) zerosArr zerosArr zerosArr 1 1 1 1 =
      (zerosArr, zerosArr, zerosArr) := by
    simp only [rhs, Prod.mk.injEq]
    refine ⟨?_, ?_, ?_⟩ <;> funext i j <;>
      simp [ddx, ddy, avx, avy, setCols, setRows, subCols, curl, zerosArr] <;>
      split_ifs <;> ring
  exact ⟨hz, c8_rk3_identity 2 2 zerosArr zerosArr zerosArr 1 zerosArr 1 1 1 1 hz⟩

/-- C7 witness: with the default latitudes `lat_min = 61 < 65 = lat_sponge`,
the sponge is `1` at colatitude `20 ≤ co(65) = 25` and `0` at colatitude
`30 ≥ co(61) = 29`. -/
theorem c7_sponge_witness :
    (61 : ℝ) < 65 ∧ sponge 61 65 20 = 1 ∧ sponge 61 65 30 = 0 := by
  refine ⟨by norm_num, ?_, ?_⟩
  · exact (c7_sponge_profile 61 65 20 30 (by norm_num)).1 (by norm_num [co])
  · exact (c7_sponge_profile 61 65 30 30 (by norm_num)).2.1 (by norm_num [co])

end JupiRSW
